import Mathlib

/-!
Shallow embedding of `etc/HeaderReformat.py`: a one-shot script that memory-maps
one input file, heuristically parses its leading comment header(s) with a
cascade of regular-expression searches, and prints one normalized copyright
line to standard output.

File contents and all derived strings are modelled as `List Char`.  Each
regular expression of the source is embedded as a dedicated executable matcher
reproducing Python `re.search` semantics (leftmost start, then the pattern's
greedy and lazy quantifier order); each definition quotes the pattern it
embeds.  The memory-map of an empty file raises `ValueError` in Python before
any parsing happens; this is modelled by the `mmapEmptyFile` error.
-/

namespace HeaderReformat

/-- Python `\s` for the (byte) strings handled here: space, TAB, LF, CR, VT, FF. -/
def isPySpace (c : Char) : Bool :=
  c == ' ' || c == '\t' || c == '\n' || c == '\r' || c == '\x0b' || c == '\x0c'

/-- Python `\d` and `[0-9]`. -/
def isPyDigit (c : Char) : Bool :=
  decide ('0' ≤ c ∧ c ≤ '9')

/-- Char list of a string literal. -/
def lit (s : String) : List Char := s.data

/-- Leftmost split of `s` around the first occurrence of `pat`:
`splitFirst pat s = some (pre, post)` with `s = pre ++ pat ++ post` and no
occurrence of `pat` starting inside `pre`. -/
def splitFirst (pat : List Char) : List Char → Option (List Char × List Char)
  | [] => if pat.isPrefixOf ([] : List Char) then some ([], []) else none
  | c :: rest =>
    if pat.isPrefixOf (c :: rest) then some ([], (c :: rest).drop pat.length)
    else (splitFirst pat rest).map (fun pr => (c :: pr.1, pr.2))

/-- Whether `pat` occurs in `s`: success of `re.search` for a literal pattern. -/
def hasSub (pat s : List Char) : Bool := (splitFirst pat s).isSome

/-- Generic leftmost-start scanner: `re.search` tries every start position in
order and succeeds at the first one where the rest of the pattern (`probe`)
matches. -/
def scan1 {α : Type} (probe : List Char → Option α) : List Char → Option α
  | [] => none
  | c :: rest =>
    match probe (c :: rest) with
    | some r => some r
    | none => scan1 probe rest

def patClose : List Char := ['*', '/']

def patInitial : List Char := ['I', 'n', 'i', 't', 'i', 'a', 'l']

def patCopyMark : List Char := ['(', 'C', ')']

/-- Tail of the double-header pattern `/\*(.*?)\*/\r?\n\n?/\*(.*?)\*/` (DOTALL)
after the closing `*/` of group 1: optional CR, one LF, optionally one more LF,
the second `/*`, then the lazy group 2 running to the first closing `*/`
(the pattern ends there, so no backtracking into group 2 is possible). -/
def afterDoubleMid (s : List Char) : Option (List Char) :=
  let s1 := match s with
    | '\r' :: r => r
    | _ => s
  match s1 with
  | '\n' :: '\n' :: '/' :: '*' :: t => (splitFirst patClose t).map Prod.fst
  | '\n' :: '/' :: '*' :: t => (splitFirst patClose t).map Prod.fst
  | _ => none

/-- One candidate end for lazy group 1: if the current suffix begins with `*/`,
try to match the remainder of the double-header pattern after it. -/
def closeTry (c : Char) (rest : List Char) : Option (List Char) :=
  if c = '*' then
    match rest with
    | d :: r2 => if d = '/' then afterDoubleMid r2 else none
    | [] => none
  else none

/-- Lazy group 1 of the double-header pattern with its backtracking: each
occurrence of `*/` is tried in turn as the end of group 1; when the
continuation fails, the group absorbs the character and matching resumes. -/
def doubleTail (acc : List Char) : List Char → Option (List Char × List Char)
  | [] => none
  | c :: rest =>
    match closeTry c rest with
    | some g2 => some (acc.reverse, g2)
    | none => doubleTail (c :: acc) rest

/-- The double-header pattern tried at one start position: it must begin with
`/*`. -/
def doubleProbe : List Char → Option (List Char × List Char)
  | c :: rest =>
    if c = '/' then
      match rest with
      | '*' :: r => doubleTail [] r
      | _ => none
    else none
  | [] => none

/-- `re.search('/\*(.*?)\*/\r?\n\n?/\*(.*?)\*/', data, re.DOTALL)`:
returns (group 1, group 2), the bodies of the two adjacent block comments. -/
def searchDouble (s : List Char) : Option (List Char × List Char) :=
  scan1 doubleProbe s

/-- Strip a literal pattern from the front of `s`: `some` of the remainder when
`pat` is a prefix, else `none`. -/
def stripLit : List Char → List Char → Option (List Char)
  | [], s => some s
  | _ :: _, [] => none
  | p :: ps, c :: s => if c = p then stripLit ps s else none

/-- The optional `(by)?` of the copyright pattern: consume a literal `by` when
present (the greedy choice always stands: the rest of the pattern cannot
fail). -/
def stripBy (s : List Char) : List Char :=
  match s with
  | c :: r =>
    if c = 'b' then
      match r with
      | d :: r2 => if d = 'y' then r2 else s
      | [] => s
    else s
  | [] => s

/-- The `\-?(\d+)?` after group 1: consume an optional `-` and a maximal digit
run (group 2, never read by the script). -/
def afterYears (s3 : List Char) : List Char :=
  match s3 with
  | c :: r => if c = '-' then r.drop (r.takeWhile isPyDigit).length else s3
  | [] => s3

/-- The `,\s*(by)?\s*(.*)?` tail of the copyright pattern: a mandatory comma,
whitespace, optional `by`, whitespace, then group 4 — the rest of the current
line (`.` without DOTALL stops before the next LF; `\s*` may cross LFs). -/
def copyrightTail (y1 : List Char) : List Char → Option (List Char × List Char)
  | c :: s5 =>
    if c = ',' then
      some (y1, (((stripBy (s5.dropWhile isPySpace)).dropWhile isPySpace).takeWhile
        (fun c => c != '\n')))
    else none
  | [] => none

/-- The `\s*(\d+)` after `Copyright` followed by the rest of the pattern: group 1
is a maximal nonempty digit run. -/
def copyrightDigits (rest : List Char) : Option (List Char × List Char) :=
  if ((rest.dropWhile isPySpace).takeWhile isPyDigit) = [] then none
  else
    copyrightTail ((rest.dropWhile isPySpace).takeWhile isPyDigit)
      (afterYears ((rest.dropWhile isPySpace).drop
        ((rest.dropWhile isPySpace).takeWhile isPyDigit).length))

def copyrightCont : Option (List Char) → Option (List Char × List Char)
  | none => none
  | some rest => copyrightDigits rest

/-- Match of `\(C\)\s*Copyright\s*(\d+)\-?(\d+)?,\s*(by)?\s*(.*)?` directly after
a `(C)`: returns (group 1, group 4).  The quantifiers need no backtracking at a
fixed start: shrinking a maximal `\s*` leaves a whitespace character where a
non-whitespace one is required next, and shrinking a maximal digit group leaves
a digit where `-` or `,` is required, so the maximal-munch choice is the only
candidate; `(by)?` and `(.*)?` are followed by parts that always match, so the
greedy choice stands. -/
def copyrightAt (s : List Char) : Option (List Char × List Char) :=
  copyrightCont (stripLit (lit "Copyright") (s.dropWhile isPySpace))

/-- The copyright-statement pattern tried at one start position: it must begin
with `(C)`. -/
def copyrightProbe : List Char → Option (List Char × List Char)
  | c :: rest =>
    if c = '(' then
      match rest with
      | d :: rest2 =>
        if d = 'C' then
          match rest2 with
          | e :: r => if e = ')' then copyrightAt r else none
          | [] => none
        else none
      | [] => none
    else none
  | [] => none

/-- `re.search('\(C\)\s*Copyright\s*(\d+)\-?(\d+)?,\s*(by)?\s*(.*)?', secondHeader)`. -/
def searchCopyright (s : List Char) : Option (List Char × List Char) :=
  scan1 copyrightProbe s

/-- `re.search('(.*)(\sand)', authors)`: with the greedy `(.*)`, group 1 is
everything before the LAST occurrence of a whitespace character directly
followed by `and`.  The scanned string is a single line here (group 4 of the
copyright pattern never contains a newline), so `.` imposes no constraint. -/
def stripAndCore : List Char → Option (List Char)
  | [] => none
  | c :: rest =>
    match (stripAndCore rest).map (fun g => c :: g) with
    | some g => some g
    | none =>
      if isPySpace c then
        match rest with
        | 'a' :: 'n' :: 'd' :: _ => some []
        | _ => none
      else none

/-- Strip from the last `\sand` onward when present; otherwise keep `a` (the
source only overwrites `authors` when the strip pattern matched). -/
def stripAnd (a : List Char) : List Char := (stripAndCore a).getD a

/-- `re.sub('[.]', '', authors)`. -/
def removeDots (a : List Char) : List Char := a.filter (fun c => c != '.')

/-- Match of `Original\sAuthor:\s*(.*)` after the literal `Original`: one
whitespace, the literal `Author:`, a maximal whitespace run (which may cross
newlines), then group 1 is the rest of the current line. -/
def origAuthorAt : List Char → Option (List Char)
  | c :: 'A' :: 'u' :: 't' :: 'h' :: 'o' :: 'r' :: ':' :: rest =>
    if isPySpace c then
      some ((rest.dropWhile isPySpace).takeWhile (fun x => x != '\n'))
    else none
  | _ => none

def origProbe : List Char → Option (List Char)
  | c :: rest =>
    if c = 'O' then
      match rest with
      | 'r' :: 'i' :: 'g' :: 'i' :: 'n' :: 'a' :: 'l' :: r => origAuthorAt r
      | _ => none
    else none
  | [] => none

/-- `re.search('Original\sAuthor:\s*(.*)', secondHeader)`. -/
def searchOrigAuthor (s : List Char) : Option (List Char) := scan1 origProbe s

/-- Groups of `\@author\s*(Original)?(\:)?\s*(.*)` after the literal `@author`:
maximal whitespace, an optional literal `Original`, an optional colon, maximal
whitespace, then group 3 is the rest of the line (greedy `.*`). -/
def atAuthorGroup3 (s : List Char) : List Char :=
  let s1 := s.dropWhile isPySpace
  let s2 := match s1 with
    | 'O' :: 'r' :: 'i' :: 'g' :: 'i' :: 'n' :: 'a' :: 'l' :: r => r
    | _ => s1
  let s3 := match s2 with
    | ':' :: r => r
    | _ => s2
  (s3.dropWhile isPySpace).takeWhile (fun c => c != '\n')

def atAuthorProbe : List Char → Option (List Char)
  | '@' :: 'a' :: 'u' :: 't' :: 'h' :: 'o' :: 'r' :: rest => some (atAuthorGroup3 rest)
  | _ => none

/-- `re.search('\@author\s*(Original)?(\:)?\s*(.*)', data)` — the variant of the
double-header branch (greedy group 3).  Everything after `@author` is optional
or can be empty, so it succeeds at the first `@author`. -/
def searchAtAuthor (s : List Char) : Option (List Char) := scan1 atAuthorProbe s

def atAuthorLazyProbe : List Char → Option (List Char)
  | '@' :: 'a' :: 'u' :: 't' :: 'h' :: 'o' :: 'r' :: _ => some []
  | _ => none

/-- `re.search('\@author\s*(Original)?(\:)?\s*(.*?)', data)` — the variant of the
single-header branch.  Its group 3 is LAZY and stands at the end of the
pattern, so it always captures the empty string. -/
def searchAtAuthorLazy (s : List Char) : Option (List Char) := scan1 atAuthorLazyProbe s

/-- Match of `/\*\s*This\sprogram(.*?)\*/` (DOTALL) after the opening `/*`:
maximal whitespace, `This`, one whitespace, `program`, then the lazy group 1
needs some later `*/`.  Only success matters to the script: group 1 is stored
in `firstHeader` and never used. -/
def singleAt (s : List Char) : Bool :=
  match s.dropWhile isPySpace with
  | 'T' :: 'h' :: 'i' :: 's' :: c :: 'p' :: 'r' :: 'o' :: 'g' :: 'r' :: 'a' :: 'm' :: rest =>
    isPySpace c && hasSub patClose rest
  | _ => false

def singleProbe : List Char → Option Unit
  | c :: rest =>
    if c = '/' then
      match rest with
      | '*' :: r => if singleAt r then some () else none
      | _ => none
    else none
  | [] => none

/-- Success of `re.search('/\*\s*This\sprogram(.*?)\*/', data, re.DOTALL)`. -/
def searchSingleFound (s : List Char) : Bool := (scan1 singleProbe s).isSome

/-- Window `[0-9]{4,4}` at the current position. -/
def fourDigitsTake (s : List Char) : Option (List Char) :=
  let w := s.take 4
  if w.length = 4 ∧ w.all isPyDigit then some w else none

/-- Lazy tail of `\@since(.*?)([0-9]{4,4})`: the first four consecutive digits
after the `@since`, on the same line (`.` does not cross LF). -/
def sinceYearAt : List Char → Option (List Char)
  | [] => none
  | c :: rest =>
    match fourDigitsTake (c :: rest) with
    | some y => some y
    | none => if c = '\n' then none else sinceYearAt rest

def sinceProbe : List Char → Option (List Char)
  | '@' :: 's' :: 'i' :: 'n' :: 'c' :: 'e' :: rest => sinceYearAt rest
  | _ => none

/-- `re.search('\@since(.*?)([0-9]{4,4})', data)`. -/
def searchSince (s : List Char) : Option (List Char) := scan1 sinceProbe s

/-- Eligible window of `(.*)?([0-9]{4,4})(.*)?Initial` inside one line: four
digits with the literal `Initial` somewhere to their right on the same line. -/
def initYearAt (s : List Char) : Option (List Char) :=
  match fourDigitsTake s with
  | some y => if hasSub patInitial (s.drop 4) then some y else none
  | none => none

/-- Greedy leading `(.*)?`: within the matched line the RIGHTMOST eligible
window is the captured group 2, so the recursion prefers a match further
right. -/
def initYearInLine : List Char → Option (List Char)
  | [] => none
  | c :: rest =>
    match initYearInLine rest with
    | some y => some y
    | none => initYearAt (c :: rest)

def splitLinesAux (acc : List Char) : List Char → List (List Char)
  | [] => [acc.reverse]
  | '\n' :: rest => acc.reverse :: splitLinesAux [] rest
  | c :: rest => splitLinesAux (c :: acc) rest

/-- The lines of `s`, separators removed.  Without DOTALL no part of the
pattern crosses an LF, so the search decomposes along lines. -/
def splitLines (s : List Char) : List (List Char) := splitLinesAux [] s

/-- `re.search('(.*)?([0-9]{4,4})(.*)?Initial', secondHeader)`: the leftmost
start position admitting a match is the beginning of the first line that
contains an eligible window; within that line the greedy `(.*)?` selects the
rightmost eligible window as group 2. -/
def searchInitialYear (s : List Char) : Option (List Char) :=
  (splitLines s).findSome? initYearInLine

/-- Window `[0-9]{4,4}-([0-9]{4,4})` at the current position: returns group 1
(the second year). -/
def yearRangeWindow (s : List Char) : Option (List Char) :=
  let w := s.take 4
  if w.length = 4 ∧ w.all isPyDigit then
    match s.drop 4 with
    | '-' :: r =>
      let w2 := r.take 4
      if w2.length = 4 ∧ w2.all isPyDigit then some w2 else none
    | _ => none
  else none

/-- Lazy `.*?` of `\(C\).*?[0-9]{4,4}-([0-9]{4,4})`: the first window after the
`(C)`, on the same line. -/
def yearRangeAt : List Char → Option (List Char)
  | [] => none
  | c :: rest =>
    match yearRangeWindow (c :: rest) with
    | some y => some y
    | none => if c = '\n' then none else yearRangeAt rest

def yearRangeProbe : List Char → Option (List Char)
  | c :: rest =>
    if c = '(' then
      match rest with
      | 'C' :: ')' :: r => yearRangeAt r
      | _ => none
    else none
  | [] => none

/-- `re.search('\(C\).*?[0-9]{4,4}-([0-9]{4,4})', firstHeader)`. -/
def searchCYearRange (s : List Char) : Option (List Char) := scan1 yearRangeProbe s

/-! ## The script body -/

def defaultAuthors : List Char := lit "Barak Naveh"

def defaultYear : List Char := lit "2016"

def warnNoOrigAuthor (fn : List Char) : List Char :=
  lit "Cannot find original author in 2nd header: " ++ fn ++ lit "; using default author\n"

def warnNoInitVersion (fn : List Char) : List Char :=
  lit "Cannot find Initial version in 2nd header: " ++ fn ++ lit "; using default year\n"

def warnNoAuthorData (fn : List Char) : List Char :=
  lit "Cannot find author in data: " ++ fn ++ lit "; using default author\n"

def warnNoYearData (fn : List Char) : List Char :=
  lit "Cannot find year in data: " ++ fn ++ lit "; using default year\n"

def warnNoHeaders (fn : List Char) : List Char :=
  lit "Did not find any headers: " ++ fn ++ lit "\n"

/-- The two ways the process can die with a traceback: `mmap.mmap(f.fileno(), 0)`
raises `ValueError` on an empty file, and the `(C)`-marked second header whose
copyright statement does not parse raises `Exception`. -/
inductive ScriptError where
  | mmapEmptyFile : ScriptError
  | cannotParseCopyright (msg : List Char) : ScriptError
deriving DecidableEq, Repr

/-- Author extraction of the double-header branch without a `(C)` mark: an
`Original Author:` line of the second header, else an `@author` tag anywhere in
the file, else the default plus a warning. -/
def doubleAuthors (fn h2 data : List Char) : List Char × List (List Char) :=
  match searchOrigAuthor h2 with
  | some a => (a, [])
  | none =>
    match searchAtAuthor data with
    | some a => (a, [])
    | none => (defaultAuthors, [warnNoOrigAuthor fn])

/-- Year extraction of the double-header branch without a `(C)` mark: an
`Initial`-marked year in the second header, else the second year of a
`(C) ... YYYY-YYYY` range in the first header, else the default plus a
warning. -/
def doubleYear (fn h1 h2 : List Char) : List Char × List (List Char) :=
  match searchInitialYear h2 with
  | some y => (y, [])
  | none =>
    match searchCYearRange h1 with
    | none => (defaultYear, [warnNoInitVersion fn])
    | some y => (y, [])

/-- The double-header branch: `(year, authors, warnings printed)` or the fatal
copyright-parse error. -/
def processDouble (fn h1 h2 data : List Char) :
    Except ScriptError (List Char × List Char × List (List Char)) :=
  if hasSub patCopyMark h2 then
    match searchCopyright h2 with
    | none =>
      Except.error (ScriptError.cannotParseCopyright
        (lit "Cannot parse copyright statement in 2nd header: " ++ fn ++ lit "\n" ++ h2))
    | some (y, rawAuthors) => Except.ok (y, removeDots (stripAnd rawAuthors), [])
  else
    Except.ok ((doubleYear fn h1 h2).1, (doubleAuthors fn h2 data).1,
      (doubleAuthors fn h2 data).2 ++ (doubleYear fn h1 h2).2)

/-- The single-header / no-header branch: `(year, authors, warnings printed)`.
In the single-header branch the source stores group 3 of the author search in
the local variable `author` that is never read again (`authors` keeps its
default), so a successful search changes nothing. -/
def processSingle (fn data : List Char) : List Char × List Char × List (List Char) :=
  if searchSingleFound data then
    let wsA : List (List Char) :=
      match searchAtAuthorLazy data with
      | some _ => []
      | none => [warnNoAuthorData fn]
    let yearWs : List Char × List (List Char) :=
      match searchSince data with
      | some y => (y, [])
      | none => (defaultYear, [warnNoYearData fn])
    (yearWs.1, defaultAuthors, wsA ++ yearWs.2)
  else
    (defaultYear, defaultAuthors, [warnNoHeaders fn])

/-- The whole extraction: mmap of the file (which fails on an empty file before
any parsing), then the header cascade. -/
def extractRecord (fn data : List Char) :
    Except ScriptError (List Char × List Char × List (List Char)) :=
  if data = [] then Except.error ScriptError.mmapEmptyFile
  else
    match searchDouble data with
    | some (h1, h2) => processDouble fn h1 h2 data
    | none => Except.ok (processSingle fn data)

/-- `print("(C) Copyright "+year+"-2016, by "+authors+", and Contributors."+" "+filename)`. -/
def formatLine (fn year authors : List Char) : List Char :=
  lit "(C) Copyright " ++ year ++ lit "-2016, by " ++ authors ++
    lit ", and Contributors. " ++ fn

deriving instance DecidableEq for Except

/-- Observable behaviour of one invocation: the warnings printed (in order), the
final print or the fatal error, and the content of the input file afterwards.
The source opens the file `'r+'` and memory-maps it but contains no write, so
the content is passed through unchanged. -/
structure RunResult where
  warnings : List (List Char)
  outcome : Except ScriptError (List Char)
  finalContent : List Char
deriving DecidableEq, Repr

def run (fn data : List Char) : RunResult :=
  match extractRecord fn data with
  | Except.error e => { warnings := [], outcome := Except.error e, finalContent := data }
  | Except.ok (y, a, ws) =>
    { warnings := ws, outcome := Except.ok (formatLine fn y a), finalContent := data }

/-! ## General lemmas about the scanners -/

theorem searchDouble_nil : searchDouble ([] : List Char) = none := rfl

theorem ne_nil_of_searchDouble_eq_some {data : List Char} {p : List Char × List Char}
    (h : searchDouble data = some p) : data ≠ [] := by
  rintro rfl
  rw [searchDouble_nil] at h
  exact Option.noConfusion h

/-- A scan skips over a leading region that contains no character that can
start the probe's pattern. -/
theorem scan1_append_head {α : Type} (probe : List Char → Option α) (h0 : Char)
    (hp : ∀ c rest, c ≠ h0 → probe (c :: rest) = none)
    (a b : List Char) (ha : h0 ∉ a) :
    scan1 probe (a ++ b) = scan1 probe b := by
  induction a with
  | nil => rfl
  | cons c a ih =>
    have hc : c ≠ h0 := fun h => ha (h ▸ List.mem_cons_self c a)
    have ha2 : h0 ∉ a := fun h => ha (List.mem_cons_of_mem c h)
    show scan1 probe (c :: (a ++ b)) = scan1 probe b
    rw [scan1, hp c (a ++ b) hc, ih ha2]

theorem copyrightProbe_ne_paren (c : Char) (rest : List Char) (hc : c ≠ '(') :
    copyrightProbe (c :: rest) = none := by
  simp [copyrightProbe, hc]

theorem origProbe_ne_O (c : Char) (rest : List Char) (hc : c ≠ 'O') :
    origProbe (c :: rest) = none := by
  simp [origProbe, hc]

theorem yearRangeProbe_ne_paren (c : Char) (rest : List Char) (hc : c ≠ '(') :
    yearRangeProbe (c :: rest) = none := by
  simp [yearRangeProbe, hc]

theorem hasSub_cons_of (pat : List Char) (c : Char) (l : List Char)
    (h : hasSub pat l = true) : hasSub pat (c :: l) = true := by
  unfold hasSub at h ⊢
  rw [splitFirst]
  by_cases hp : pat.isPrefixOf (c :: l)
  · simp [hp]
  · rw [if_neg hp]
    cases hs : splitFirst pat l with
    | none => rw [hs] at h; simp at h
    | some pr => simp

theorem hasSub_append_right (pat a b : List Char) (h : hasSub pat b = true) :
    hasSub pat (a ++ b) = true := by
  induction a with
  | nil => simpa using h
  | cons c a ih => simpa using hasSub_cons_of pat c (a ++ b) ih

/-! ## Lemmas characterising the script body -/

theorem extractRecord_double (fn data h1 h2 : List Char)
    (hd : searchDouble data = some (h1, h2)) :
    extractRecord fn data = processDouble fn h1 h2 data := by
  unfold extractRecord
  rw [if_neg (ne_nil_of_searchDouble_eq_some hd), hd]

theorem extractRecord_nodouble (fn data : List Char) (hne : data ≠ [])
    (hd : searchDouble data = none) :
    extractRecord fn data = Except.ok (processSingle fn data) := by
  unfold extractRecord
  rw [if_neg hne, hd]

theorem processDouble_mark (fn h1 h2 data y ra : List Char)
    (hC : hasSub patCopyMark h2 = true) (hcp : searchCopyright h2 = some (y, ra)) :
    processDouble fn h1 h2 data = Except.ok (y, removeDots (stripAnd ra), []) := by
  simp [processDouble, hC, hcp]

theorem processDouble_mark_fail (fn h1 h2 data : List Char)
    (hC : hasSub patCopyMark h2 = true) (hcp : searchCopyright h2 = none) :
    processDouble fn h1 h2 data = Except.error (ScriptError.cannotParseCopyright
      (lit "Cannot parse copyright statement in 2nd header: " ++ fn ++ lit "\n" ++ h2)) := by
  simp [processDouble, hC, hcp]

theorem processDouble_nomark (fn h1 h2 data : List Char)
    (hC : hasSub patCopyMark h2 = false) :
    processDouble fn h1 h2 data = Except.ok ((doubleYear fn h1 h2).1,
      (doubleAuthors fn h2 data).1,
      (doubleAuthors fn h2 data).2 ++ (doubleYear fn h1 h2).2) := by
  simp [processDouble, hC]

theorem run_of_ok (fn data y a : List Char) (ws : List (List Char))
    (h : extractRecord fn data = Except.ok (y, a, ws)) :
    run fn data = ⟨ws, Except.ok (formatLine fn y a), data⟩ := by
  unfold run
  rw [h]

theorem run_of_error (fn data : List Char) (e : ScriptError)
    (h : extractRecord fn data = Except.error e) :
    run fn data = ⟨[], Except.error e, data⟩ := by
  unfold run
  rw [h]

theorem doubleAuthors_snd (fn h2 data : List Char) :
    (doubleAuthors fn h2 data).2 = [] ∨
      (doubleAuthors fn h2 data).2 = [warnNoOrigAuthor fn] := by
  unfold doubleAuthors
  cases searchOrigAuthor h2 with
  | some a => exact Or.inl rfl
  | none =>
    cases searchAtAuthor data with
    | some a => exact Or.inl rfl
    | none => exact Or.inr rfl

theorem warnNoOrigAuthor_ne_warnNoInitVersion (fn : List Char) :
    warnNoOrigAuthor fn ≠ warnNoInitVersion fn := by
  intro h
  have hlen := congrArg List.length h
  have e1 : (lit "Cannot find original author in 2nd header: ").length = 43 := rfl
  have e2 : (lit "; using default author\n").length = 23 := rfl
  have e3 : (lit "Cannot find Initial version in 2nd header: ").length = 43 := rfl
  have e4 : (lit "; using default year\n").length = 21 := rfl
  rw [warnNoOrigAuthor, warnNoInitVersion] at hlen
  simp only [List.length_append, e1, e2, e3, e4] at hlen
  omega

/-! ## The claims -/

/-- Claim C1 (code bug): on a single-header file carrying `@author John Smith`
and `@since 1999`, the claim and spec promise `authors="John Smith"`, but the
script prints the default `Barak Naveh`: the single-header branch stores the
matched author group in the never-read local variable `author` (and that group,
a lazy `(.*?)` at the end of the pattern, always captures the empty string
anyway).  The year `1999` is extracted as claimed.  This theorem evaluates the
embedding at the failing input: the single-header pattern matches, the file
contains `@author`, no warning is emitted, yet the printed line carries the
default author. -/
theorem c1_single_header_author_dropped :
    searchDouble (lit "/* This program x */\n@author John Smith\n@since 1999\n") = none ∧
    searchSingleFound (lit "/* This program x */\n@author John Smith\n@since 1999\n") = true ∧
    hasSub (lit "@author") (lit "/* This program x */\n@author John Smith\n@since 1999\n")
      = true ∧
    run (lit "F.java") (lit "/* This program x */\n@author John Smith\n@since 1999\n") =
      ⟨[], Except.ok
        (lit "(C) Copyright 1999-2016, by Barak Naveh, and Contributors. F.java"),
        lit "/* This program x */\n@author John Smith\n@since 1999\n"⟩ := by
  refine ⟨by decide, by decide, by decide, by decide⟩

/-- Claim C8: the script never writes to the input file, and running it twice on
the same unmodified file yields the same observable result both times. -/
theorem c8_no_write_idempotent (fn data : List Char) :
    (run fn data).finalContent = data ∧
    run fn ((run fn data).finalContent) = run fn data := by
  have h : (run fn data).finalContent = data := by
    unfold run
    cases h : extractRecord fn data with
    | error e => rfl
    | ok v =>
      rcases v with ⟨y, a, ws⟩
      rfl
  exact ⟨h, by rw [h]⟩

/-- Claim C9: on an empty (zero-byte) file the memory-map call fails before any
parsing: the run terminates with the `mmap` error, emitting no warning and no
output line. -/
theorem c9_empty_file_mmap_error (fn : List Char) :
    run fn [] = ⟨[], Except.error ScriptError.mmapEmptyFile, []⟩ := rfl

/-- Claim C6, counterexample: the empty file matches neither the double-header
nor the single-header pattern, yet — contrary to the claim — the script emits
no warning and prints no default line: the memory-map call fails first. -/
theorem c6_counterexample :
    searchDouble ([] : List Char) = none ∧
    searchSingleFound ([] : List Char) = false ∧
    (run (lit "F.java") []).warnings = [] ∧
    (run (lit "F.java") []).outcome = Except.error ScriptError.mmapEmptyFile := by
  refine ⟨rfl, rfl, rfl, rfl⟩

/-- Claim C6 as amended: for every NON-EMPTY input file that matches neither the
double-header pattern nor the single-header pattern, the script emits exactly
the one no-headers warning and prints the default line
`(C) Copyright 2016-2016, by Barak Naveh, and Contributors. <path>`. -/
theorem c6_amended_no_header_defaults (fn data : List Char) (hne : data ≠ [])
    (hd : searchDouble data = none) (hs : searchSingleFound data = false) :
    run fn data = ⟨[warnNoHeaders fn],
      Except.ok (lit "(C) Copyright 2016-2016, by Barak Naveh, and Contributors. " ++ fn),
      data⟩ := by
  have hps : processSingle fn data = (defaultYear, defaultAuthors, [warnNoHeaders fn]) := by
    unfold processSingle
    rw [hs]
    rfl
  have he := extractRecord_nodouble fn data hne hd
  rw [hps] at he
  have := run_of_ok fn data defaultYear defaultAuthors [warnNoHeaders fn] he
  rw [this]
  rfl

/-- Witness for C6 (amended) at a concrete header-less file. -/
theorem c6_amended_witness :
    run (lit "F.java") (lit "hello") = ⟨[warnNoHeaders (lit "F.java")],
      Except.ok (lit "(C) Copyright 2016-2016, by Barak Naveh, and Contributors. " ++
        lit "F.java"),
      lit "hello"⟩ :=
  c6_amended_no_header_defaults (lit "F.java") (lit "hello")
    (by decide) (by decide) (by decide)

/-- Claim C2, counterexample: the claim quantifies over every input file, but on
the empty file the script terminates with a (memory-map) fatal error and prints
no copyright line even though the double-header condition of the claimed
equivalence is false. -/
theorem c2_counterexample :
    (∃ e, (run (lit "F.java") []).outcome = Except.error e) ∧
    searchDouble ([] : List Char) = none := by
  exact ⟨⟨ScriptError.mmapEmptyFile, rfl⟩, rfl⟩

/-- Claim C2 as amended: for every NON-EMPTY input file, the script raises a
fatal error (no copyright line printed) if and only if the double-header
pattern matches and the second block contains `(C)` but the copyright-statement
pattern fails on it; in every other case exactly one copyright line is
printed. -/
theorem c2_amended_error_iff (fn data : List Char) (hne : data ≠ []) :
    ((∃ e, (run fn data).outcome = Except.error e) ↔
      (∃ h1 h2, searchDouble data = some (h1, h2) ∧ hasSub patCopyMark h2 = true ∧
        searchCopyright h2 = none)) ∧
    ((¬ ∃ h1 h2, searchDouble data = some (h1, h2) ∧ hasSub patCopyMark h2 = true ∧
        searchCopyright h2 = none) → ∃ line, (run fn data).outcome = Except.ok line) := by
  cases hd : searchDouble data with
  | none =>
    rcases hps : processSingle fn data with ⟨y, a, ws⟩
    have he := extractRecord_nodouble fn data hne hd
    rw [hps] at he
    have hr := run_of_ok fn data y a ws he
    constructor
    · constructor
      · rintro ⟨e, hce⟩
        rw [hr] at hce
        exact Except.noConfusion hce
      · rintro ⟨h1, h2, hd2, -, -⟩
        exact Option.noConfusion hd2
    · intro _
      exact ⟨formatLine fn y a, by rw [hr]⟩
  | some p =>
    rcases p with ⟨h1, h2⟩
    have he := extractRecord_double fn data h1 h2 hd
    by_cases hC : hasSub patCopyMark h2 = true
    · cases hcp : searchCopyright h2 with
      | none =>
        have herr := processDouble_mark_fail fn h1 h2 data hC hcp
        rw [herr] at he
        have hr := run_of_error fn data _ he
        constructor
        · constructor
          · intro _
            exact ⟨h1, h2, rfl, hC, hcp⟩
          · intro _
            exact ⟨_, by rw [hr]⟩
        · intro hn
          exact absurd ⟨h1, h2, rfl, hC, hcp⟩ hn
      | some pr =>
        rcases pr with ⟨y, ra⟩
        have hok := processDouble_mark fn h1 h2 data y ra hC hcp
        rw [hok] at he
        have hr := run_of_ok fn data _ _ _ he
        have hline : ∃ line, (run fn data).outcome = Except.ok line :=
          ⟨_, by rw [hr]⟩
        constructor
        · constructor
          · rintro ⟨e, hce⟩
            rw [hr] at hce
            exact Except.noConfusion hce
          · rintro ⟨h1x, h2x, hdx, -, hcpx⟩
            injection hdx with hdx
            injection hdx with e1 e2
            rw [← e2] at hcpx
            rw [hcpx] at hcp
            exact Option.noConfusion hcp
        · intro _
          exact hline
    · have hok := processDouble_nomark fn h1 h2 data (by
        cases hcb : hasSub patCopyMark h2 with
        | true => exact absurd hcb hC
        | false => rfl)
      rw [hok] at he
      have hr := run_of_ok fn data _ _ _ he
      constructor
      · constructor
        · rintro ⟨e, hce⟩
          rw [hr] at hce
          exact Except.noConfusion hce
        · rintro ⟨h1x, h2x, hdx, hCx, -⟩
          injection hdx with hdx
          injection hdx with e1 e2
          rw [← e2] at hCx
          exact (hC hCx).elim
      · intro _
        exact ⟨_, by rw [hr]⟩

/-- Witness for C2 (amended): a concrete double-header file whose second block
contains `(C)` without a parseable copyright statement does terminate with the
fatal error. -/
theorem c2_amended_witness :
    ∃ e, (run (lit "F.java") (lit "/* a */\n/* (C) 2003 */")).outcome =
      Except.error e :=
  (c2_amended_error_iff (lit "F.java") (lit "/* a */\n/* (C) 2003 */")
      (by decide)).1.mpr
    ⟨lit " a ", lit " (C) 2003 ", by decide, by decide, by decide⟩

theorem searchCopyright_append (pre s : List Char) (hp : '(' ∉ pre) :
    searchCopyright (pre ++ s) = searchCopyright s :=
  scan1_append_head copyrightProbe '(' copyrightProbe_ne_paren pre s hp

/-- Claim C3: in a double-header file whose second block's copyright statement
is the line `(C) Copyright 2003-2008, by Barak Naveh and Contributors.` (the
first `(C)` of the block starts this line), the extractor yields year `2003`
(the first year of the range) and authors `Barak Naveh` (the last ` and` and
everything after it stripped, then periods removed), with no warning. -/
theorem c3_copyright_extraction (fn data h1 h2 pre suf : List Char)
    (hd : searchDouble data = some (h1, h2))
    (hh : h2 = pre ++ lit "(C) Copyright 2003-2008, by Barak Naveh and Contributors." ++ suf)
    (hp : '(' ∉ pre)
    (hs : suf = [] ∨ ∃ t, suf = '\n' :: t) :
    extractRecord fn data = Except.ok (lit "2003", lit "Barak Naveh", []) ∧
    (run fn data).outcome =
      Except.ok (formatLine fn (lit "2003") (lit "Barak Naveh")) := by
  have hcp : searchCopyright h2 =
      some (lit "2003", lit "Barak Naveh and Contributors.") := by
    rw [hh, List.append_assoc, searchCopyright_append pre _ hp]
    rcases hs with rfl | ⟨t, rfl⟩
    · rfl
    · rfl
  have hC : hasSub patCopyMark h2 = true := by
    rw [hh, List.append_assoc]
    exact hasSub_append_right patCopyMark pre _ rfl
  have hok := processDouble_mark fn h1 h2 data _ _ hC hcp
  have hstrip : removeDots (stripAnd (lit "Barak Naveh and Contributors.")) =
      lit "Barak Naveh" := by decide
  rw [hstrip] at hok
  have he := extractRecord_double fn data h1 h2 hd
  rw [hok] at he
  exact ⟨he, by rw [run_of_ok fn data _ _ _ he]⟩

/-- Witness for C3 at a concrete double-header file. -/
theorem c3_witness :
    extractRecord (lit "F.java")
        (lit "/* x */\n/* (C) Copyright 2003-2008, by Barak Naveh and Contributors.\n */") =
      Except.ok (lit "2003", lit "Barak Naveh", []) ∧
    (run (lit "F.java")
        (lit "/* x */\n/* (C) Copyright 2003-2008, by Barak Naveh and Contributors.\n */")).outcome =
      Except.ok (formatLine (lit "F.java") (lit "2003") (lit "Barak Naveh")) :=
  c3_copyright_extraction (lit "F.java")
    (lit "/* x */\n/* (C) Copyright 2003-2008, by Barak Naveh and Contributors.\n */")
    (lit " x ")
    (lit " (C) Copyright 2003-2008, by Barak Naveh and Contributors.\n ")
    (lit " ") (lit "\n ")
    (by decide) (by decide) (by decide) (Or.inr ⟨lit " ", rfl⟩)

theorem searchCYearRange_append (pre s : List Char) (hp : '(' ∉ pre) :
    searchCYearRange (pre ++ s) = searchCYearRange s :=
  scan1_append_head yearRangeProbe '(' yearRangeProbe_ne_paren pre s hp

theorem yearRangeWindow_at_range (y1 y2 rest : List Char)
    (hy1l : y1.length = 4) (hy1d : ∀ c ∈ y1, isPyDigit c = true)
    (hy2l : y2.length = 4) (hy2d : ∀ c ∈ y2, isPyDigit c = true) :
    yearRangeWindow (y1 ++ '-' :: (y2 ++ rest)) = some y2 := by
  unfold yearRangeWindow
  have ht1 : (y1 ++ '-' :: (y2 ++ rest)).take 4 = y1 := by
    rw [← hy1l]
    exact List.take_left y1 _
  have hd1 : (y1 ++ '-' :: (y2 ++ rest)).drop 4 = '-' :: (y2 ++ rest) := by
    rw [← hy1l]
    exact List.drop_left y1 _
  have ht2 : (y2 ++ rest).take 4 = y2 := by
    rw [← hy2l]
    exact List.take_left y2 _
  rw [ht1, hd1, if_pos ⟨hy1l, List.all_eq_true.mpr hy1d⟩]
  show (if (List.take 4 (y2 ++ rest)).length = 4 ∧
        (List.take 4 (y2 ++ rest)).all isPyDigit = true
      then some (List.take 4 (y2 ++ rest)) else none) = some y2
  rw [ht2, if_pos ⟨hy2l, List.all_eq_true.mpr hy2d⟩]

theorem yearRangeWindow_cons_nondigit (c : Char) (t : List Char)
    (hc : isPyDigit c = false) : yearRangeWindow (c :: t) = none := by
  unfold yearRangeWindow
  have : ((c :: t).take 4).all isPyDigit = false := by
    rw [List.take_succ_cons]
    simp [hc]
  rw [if_neg]
  rintro ⟨-, hall⟩
  rw [this] at hall
  exact Bool.noConfusion hall

theorem yearRangeAt_through_gap (gap y1 y2 rest : List Char)
    (hgap : ∀ c ∈ gap, isPyDigit c = false ∧ c ≠ '\n')
    (hy1l : y1.length = 4) (hy1d : ∀ c ∈ y1, isPyDigit c = true)
    (hy2l : y2.length = 4) (hy2d : ∀ c ∈ y2, isPyDigit c = true) :
    yearRangeAt (gap ++ y1 ++ '-' :: (y2 ++ rest)) = some y2 := by
  induction gap with
  | nil =>
    have hne : y1 ≠ [] := by
      intro e
      rw [e] at hy1l
      exact absurd hy1l (by decide)
    rcases y1 with - | ⟨c1, t1⟩
    · exact absurd rfl hne
    · show yearRangeAt (c1 :: (t1 ++ '-' :: (y2 ++ rest))) = some y2
      rw [yearRangeAt]
      have hw := yearRangeWindow_at_range (c1 :: t1) y2 rest hy1l hy1d hy2l hy2d
      rw [List.cons_append] at hw
      rw [hw]
  | cons c gap ih =>
    have hc := hgap c (List.mem_cons_self c gap)
    have hgap2 : ∀ x ∈ gap, isPyDigit x = false ∧ x ≠ '\n' :=
      fun x hx => hgap x (List.mem_cons_of_mem c hx)
    show yearRangeAt (c :: (gap ++ y1 ++ '-' :: (y2 ++ rest))) = some y2
    rw [yearRangeAt, yearRangeWindow_cons_nondigit c _ hc.1, if_neg hc.2]
    exact ih hgap2

/-- Claim C4, counterexample: the first block of this double header contains the
year range `2003-2008`, the second block lacks `(C)` and any `Initial` year,
yet the claimed fallback does not fire — the code's fallback pattern demands a
`(C)` before the range — so the year stays `2016` and the default-year warning
IS emitted. -/
theorem c4_counterexample :
    searchDouble (lit "/* 2003-2008 */\n/* x */") =
      some (lit " 2003-2008 ", lit " x ") ∧
    hasSub patCopyMark (lit " x ") = false ∧
    searchInitialYear (lit " x ") = none ∧
    (run (lit "F.java") (lit "/* 2003-2008 */\n/* x */")).warnings =
      [warnNoOrigAuthor (lit "F.java"), warnNoInitVersion (lit "F.java")] ∧
    (run (lit "F.java") (lit "/* 2003-2008 */\n/* x */")).outcome =
      Except.ok (lit "(C) Copyright 2016-2016, by Barak Naveh, and Contributors. F.java") := by
  refine ⟨by decide, by decide, by decide, by decide, by decide⟩

/-- Claim C4 as amended: for a double-header input whose second block lacks
`(C)` and has no `Initial`-marked year, if the FIRST block contains a `(C)`
followed on the same line by a year range `YYYY-YYYY`, the extracted year is
the second year of that range and no default-year warning is emitted. -/
theorem c4_amended_year_range_fallback (fn data h1 h2 pre gap y1 y2 rest : List Char)
    (hd : searchDouble data = some (h1, h2))
    (hC : hasSub patCopyMark h2 = false)
    (hIY : searchInitialYear h2 = none)
    (hh1 : h1 = pre ++ patCopyMark ++ (gap ++ y1 ++ '-' :: (y2 ++ rest)))
    (hpre : '(' ∉ pre)
    (hgap : ∀ c ∈ gap, isPyDigit c = false ∧ c ≠ '\n')
    (hy1l : y1.length = 4) (hy1d : ∀ c ∈ y1, isPyDigit c = true)
    (hy2l : y2.length = 4) (hy2d : ∀ c ∈ y2, isPyDigit c = true) :
    ∃ a ws, extractRecord fn data = Except.ok (y2, a, ws) ∧
      warnNoInitVersion fn ∉ ws := by
  have hcy : searchCYearRange h1 = some y2 := by
    rw [hh1, List.append_assoc, searchCYearRange_append pre _ hpre]
    show scan1 yearRangeProbe ('(' :: 'C' :: ')' :: (gap ++ y1 ++ '-' :: (y2 ++ rest)))
      = some y2
    rw [scan1]
    have hprobe : yearRangeProbe ('(' :: 'C' :: ')' :: (gap ++ y1 ++ '-' :: (y2 ++ rest)))
        = some y2 := by
      show (if '(' = '(' then yearRangeAt (gap ++ y1 ++ '-' :: (y2 ++ rest)) else none)
        = some y2
      rw [if_pos rfl]
      exact yearRangeAt_through_gap gap y1 y2 rest hgap hy1l hy1d hy2l hy2d
    rw [hprobe]
  have hyear : doubleYear fn h1 h2 = (y2, []) := by
    unfold doubleYear
    rw [hIY, hcy]
  have hok := processDouble_nomark fn h1 h2 data hC
  rw [hyear] at hok
  have he := extractRecord_double fn data h1 h2 hd
  rw [hok] at he
  refine ⟨(doubleAuthors fn h2 data).1, (doubleAuthors fn h2 data).2 ++ [], by exact he, ?_⟩
  intro hmem
  rw [List.append_nil] at hmem
  rcases doubleAuthors_snd fn h2 data with hsnd | hsnd <;> rw [hsnd] at hmem
  · exact List.not_mem_nil _ hmem
  · rcases List.mem_singleton.mp hmem with e
    exact warnNoOrigAuthor_ne_warnNoInitVersion fn e.symm

/-- Witness for C4 (amended) at a concrete input: the range `1999-2005` behind a
`(C)` in the first header supplies the year `2005`. -/
theorem c4_amended_witness :
    ∃ a ws,
      extractRecord (lit "F.java") (lit "/* (C) 1999-2005 */\n/* nothing */") =
        Except.ok (lit "2005", a, ws) ∧
      warnNoInitVersion (lit "F.java") ∉ ws :=
  c4_amended_year_range_fallback (lit "F.java")
    (lit "/* (C) 1999-2005 */\n/* nothing */")
    (lit " (C) 1999-2005 ") (lit " nothing ")
    (lit " ") (lit " ") (lit "1999") (lit "2005") (lit " ")
    (by decide) (by decide) (by decide) (by decide) (by decide)
    (by decide) (by decide) (by decide) (by decide) (by decide)

theorem searchOrigAuthor_append (pre s : List Char) (hp : 'O' ∉ pre) :
    searchOrigAuthor (pre ++ s) = searchOrigAuthor s :=
  scan1_append_head origProbe 'O' origProbe_ne_O pre s hp

theorem hasSub_cons_head_eq_false (c0 : Char) (tl s : List Char) (h : c0 ∉ s) :
    hasSub (c0 :: tl) s = false := by
  induction s with
  | nil => rfl
  | cons c rest ih =>
    have hc : c0 ≠ c := fun e => h (e ▸ List.mem_cons_self c rest)
    have h2 : c0 ∉ rest := fun m => h (List.mem_cons_of_mem c m)
    unfold hasSub splitFirst
    have hnp : ¬ ((c0 :: tl).isPrefixOf (c :: rest) = true) := by
      intro hpre
      rcases List.cons_prefix_cons.mp (List.isPrefixOf_iff_prefix.mp hpre) with ⟨e, -⟩
      exact hc e
    rw [if_neg hnp]
    cases hs : splitFirst (c0 :: tl) rest with
    | none => rfl
    | some pr =>
      unfold hasSub at ih
      rw [hs] at ih
      exact absurd (ih h2) (by simp)

theorem initYearInLine_eq_none (l : List Char) (h : 'I' ∉ l) :
    initYearInLine l = none := by
  induction l with
  | nil => rfl
  | cons c rest ih =>
    have h2 : 'I' ∉ rest := fun m => h (List.mem_cons_of_mem c m)
    have hI : 'I' ∉ (c :: rest).drop 4 := fun m => h (List.drop_subset 4 (c :: rest) m)
    have hini : hasSub patInitial ((c :: rest).drop 4) = false :=
      hasSub_cons_head_eq_false 'I' ['n', 'i', 't', 'i', 'a', 'l'] _ hI
    rw [initYearInLine, ih h2]
    unfold initYearAt
    cases hfd : fourDigitsTake (c :: rest) with
    | none => rfl
    | some y =>
      rw [hini]
      rfl

theorem initYearInLine_append_some (u w y : List Char)
    (hw : initYearInLine w = some y) : initYearInLine (u ++ w) = some y := by
  induction u with
  | nil => simpa using hw
  | cons c u ih =>
    show initYearInLine (c :: (u ++ w)) = some y
    rw [initYearInLine, ih]

theorem findSome?_append_none {α β : Type} (f : α → Option β) (ls t : List α)
    (h : ∀ l ∈ ls, f l = none) :
    List.findSome? f (ls ++ t) = List.findSome? f t := by
  induction ls with
  | nil => rfl
  | cons x ls ih =>
    show List.findSome? f (x :: (ls ++ t)) = List.findSome? f t
    rw [List.findSome?_cons, h x (List.mem_cons_self x ls)]
    exact ih (fun l hl => h l (List.mem_cons_of_mem x hl))

/-- Claim C5: in a double-header file whose second block lacks `(C)`, contains an
`Original Author:  Jane Doe` line (the block's first `O` starts its
`Original`), and whose first line containing `Initial` ends in
`24-Jul-2003 : Initial revision`, the extractor yields authors `Jane Doe` and
year `2003` with no warning.  The hypotheses say nothing about `@author` tags
in the rest of the file: an `@author` tag may be present anywhere, and the
`Original Author:` line still wins (the `@author` fallback is reached only when
the `Original Author` search fails). -/
theorem c5_orig_author_and_initial (fn data h1 h2 a suf u : List Char)
    (ls ls2 : List (List Char))
    (hd : searchDouble data = some (h1, h2))
    (hC : hasSub patCopyMark h2 = false)
    (ha : h2 = a ++ lit "Original Author:  Jane Doe" ++ suf)
    (haO : 'O' ∉ a)
    (hsuf : suf = [] ∨ ∃ t, suf = '\n' :: t)
    (hml : splitLines h2 = ls ++ (u ++ lit "24-Jul-2003 : Initial revision") :: ls2)
    (hls : ∀ l ∈ ls, 'I' ∉ l) :
    extractRecord fn data = Except.ok (lit "2003", lit "Jane Doe", []) := by
  have horig : searchOrigAuthor h2 = some (lit "Jane Doe") := by
    rw [ha, List.append_assoc, searchOrigAuthor_append a _ haO]
    rcases hsuf with rfl | ⟨t, rfl⟩
    · rfl
    · rfl
  have hiy : searchInitialYear h2 = some (lit "2003") := by
    unfold searchInitialYear
    rw [hml, findSome?_append_none initYearInLine ls _
      (fun l hl => initYearInLine_eq_none l (hls l hl))]
    rw [List.findSome?_cons]
    have hline : initYearInLine (u ++ lit "24-Jul-2003 : Initial revision") =
        some (lit "2003") :=
      initYearInLine_append_some u _ _ (by decide)
    rw [hline]
  have hauth : doubleAuthors fn h2 data = (lit "Jane Doe", []) := by
    unfold doubleAuthors
    rw [horig]
  have hyear : doubleYear fn h1 h2 = (lit "2003", []) := by
    unfold doubleYear
    rw [hiy]
  have hok := processDouble_nomark fn h1 h2 data hC
  rw [hauth, hyear] at hok
  have he := extractRecord_double fn data h1 h2 hd
  rw [hok] at he
  exact he

/-- Witness for C5 at a concrete file that ALSO carries an `@author Bob` tag:
the `Original Author:` line is preferred. -/
theorem c5_witness :
    hasSub (lit "@author") (lit "/* head */\n/* Original Author:  Jane Doe\n * 24-Jul-2003 : Initial revision\n */\n@author Bob\n") = true ∧
    extractRecord (lit "F.java")
      (lit "/* head */\n/* Original Author:  Jane Doe\n * 24-Jul-2003 : Initial revision\n */\n@author Bob\n") =
      Except.ok (lit "2003", lit "Jane Doe", []) :=
  ⟨by decide,
    c5_orig_author_and_initial (lit "F.java")
      (lit "/* head */\n/* Original Author:  Jane Doe\n * 24-Jul-2003 : Initial revision\n */\n@author Bob\n")
      (lit " head ")
      (lit " Original Author:  Jane Doe\n * 24-Jul-2003 : Initial revision\n ")
      (lit " ") (lit "\n * 24-Jul-2003 : Initial revision\n ") (lit " * ")
      [lit " Original Author:  Jane Doe"] [lit " "]
      (by decide) (by decide) (by decide) (by decide)
      (Or.inr ⟨lit " * 24-Jul-2003 : Initial revision\n ", rfl⟩)
      (by decide) (by decide)⟩

theorem hasSub_tail_eq_false (pat : List Char) (c : Char) (l : List Char)
    (h : hasSub pat (c :: l) = false) : hasSub pat l = false := by
  cases hb : hasSub pat l with
  | false => rfl
  | true =>
    rw [hasSub_cons_of pat c l hb] at h
    exact Bool.noConfusion h

theorem hasSub_of_isPrefixOf (pat s : List Char) (h : pat.isPrefixOf s = true) :
    hasSub pat s = true := by
  unfold hasSub
  cases s with
  | nil => rw [splitFirst, if_pos h]; rfl
  | cons c rest => rw [splitFirst, if_pos h]; rfl

theorem isPrefixOf_close_cons (t : List Char) :
    patClose.isPrefixOf ('*' :: '/' :: t) = true :=
  List.isPrefixOf_iff_prefix.mpr
    (List.cons_prefix_cons.mpr ⟨rfl, List.cons_prefix_cons.mpr ⟨rfl, List.nil_prefix⟩⟩)

theorem hasSub_close_cons (t : List Char) : hasSub patClose ('*' :: '/' :: t) = true :=
  hasSub_of_isPrefixOf _ _ (isPrefixOf_close_cons t)

theorem splitFirst_close_append (pre r : List Char) (h : hasSub patClose pre = false) :
    splitFirst patClose (pre ++ patClose ++ r) = some (pre, r) := by
  induction pre with
  | nil =>
    show splitFirst patClose ('*' :: '/' :: r) = some ([], r)
    rw [splitFirst, if_pos (isPrefixOf_close_cons r)]
    rfl
  | cons c pre ih =>
    have hpre : hasSub patClose pre = false := hasSub_tail_eq_false patClose c pre h
    show splitFirst patClose (c :: (pre ++ patClose ++ r)) = some (c :: pre, r)
    rw [splitFirst]
    have hnp : ¬ (patClose.isPrefixOf (c :: (pre ++ patClose ++ r)) = true) := by
      intro hp
      rcases List.cons_prefix_cons.mp (List.isPrefixOf_iff_prefix.mp hp) with ⟨hc, htl⟩
      cases pre with
      | nil =>
        rcases List.cons_prefix_cons.mp htl with ⟨e, -⟩
        exact absurd e (by decide)
      | cons d pret =>
        rcases List.cons_prefix_cons.mp htl with ⟨e, -⟩
        have hcl : hasSub patClose (c :: d :: pret) = true := by
          rw [← hc, ← e]
          exact hasSub_close_cons pret
        rw [hcl] at h
        exact Bool.noConfusion h
    rw [if_neg hnp, ih hpre]
    rfl

theorem doubleTail_to_close (b1 mid g2 : List Char) (acc : List Char)
    (hb1 : hasSub patClose b1 = false)
    (hmid : afterDoubleMid mid = some g2) :
    doubleTail acc (b1 ++ '*' :: '/' :: mid) = some (acc.reverse ++ b1, g2) := by
  induction b1 generalizing acc with
  | nil =>
    show doubleTail acc ('*' :: '/' :: mid) = some (acc.reverse ++ [], g2)
    rw [doubleTail]
    have hct : closeTry '*' ('/' :: mid) = some g2 := by
      unfold closeTry
      rw [if_pos rfl]
      show (if '/' = '/' then afterDoubleMid mid else none) = some g2
      rw [if_pos rfl]
      exact hmid
    rw [hct, List.append_nil]
  | cons c b1 ih =>
    have hb1t : hasSub patClose b1 = false := hasSub_tail_eq_false patClose c b1 hb1
    show doubleTail acc (c :: (b1 ++ '*' :: '/' :: mid)) = some (acc.reverse ++ c :: b1, g2)
    rw [doubleTail]
    have hct : closeTry c (b1 ++ '*' :: '/' :: mid) = none := by
      unfold closeTry
      by_cases hc : c = '*'
      · rw [if_pos hc]
        cases b1 with
        | nil => rfl
        | cons d b1t =>
          show (if d = '/' then afterDoubleMid (b1t ++ '*' :: '/' :: mid) else none) = none
          by_cases hdc : d = '/'
          · exfalso
            have hcl : hasSub patClose (c :: d :: b1t) = true := by
              rw [hc, hdc]
              exact hasSub_close_cons b1t
            rw [hcl] at hb1
            exact Bool.noConfusion hb1
          · rw [if_neg hdc]
      · rw [if_neg hc]
    rw [hct]
    show doubleTail (c :: acc) (b1 ++ '*' :: '/' :: mid) = some (acc.reverse ++ c :: b1, g2)
    rw [ih (c :: acc) hb1t, List.reverse_cons, List.append_assoc]
    rfl

/-- Claim C7, counterexample: a file beginning with a block comment followed by
TWO blank lines and then another block comment is NOT recognized as a double
header (the pattern allows at most one optional extra newline), and the script
falls through to the no-headers warning. -/
theorem c7_counterexample :
    searchDouble (lit "/*A*/\n\n\n/*B*/") = none ∧
    (run (lit "F.java") (lit "/*A*/\n\n\n/*B*/")).warnings =
      [warnNoHeaders (lit "F.java")] := by
  refine ⟨by decide, by decide⟩

/-- Claim C7 as amended: for every input file beginning with a block comment
`/* ... */` followed by a newline and AT MOST one blank line and then another
block comment `/* ... */`, the double-header branch is taken, capturing the two
comment bodies. -/
theorem c7_amended_double_header (b1 b2 nl r : List Char)
    (hnl : nl = lit "\n" ∨ nl = lit "\n\n")
    (hb1 : hasSub patClose b1 = false)
    (hb2 : hasSub patClose b2 = false) :
    searchDouble
      (lit "/*" ++ (b1 ++ (lit "*/" ++ (nl ++ (lit "/*" ++ (b2 ++ (lit "*/" ++ r))))))) =
      some (b1, b2) := by
  have hsp : splitFirst patClose (b2 ++ (patClose ++ r)) = some (b2, r) := by
    rw [← List.append_assoc]
    exact splitFirst_close_append b2 r hb2
  have hmid : afterDoubleMid (nl ++ ('/' :: '*' :: (b2 ++ ('*' :: '/' :: r)))) = some b2 := by
    rcases hnl with rfl | rfl
    · show (splitFirst patClose (b2 ++ (patClose ++ r))).map Prod.fst = some b2
      rw [hsp]
      rfl
    · show (splitFirst patClose (b2 ++ (patClose ++ r))).map Prod.fst = some b2
      rw [hsp]
      rfl
  have hdt := doubleTail_to_close b1
    (nl ++ ('/' :: '*' :: (b2 ++ ('*' :: '/' :: r)))) b2 [] hb1 hmid
  rw [List.reverse_nil, List.nil_append] at hdt
  show scan1 doubleProbe
    ('/' :: '*' :: (b1 ++ ('*' :: '/' :: (nl ++ ('/' :: '*' :: (b2 ++ ('*' :: '/' :: r))))))) =
    some (b1, b2)
  rw [scan1]
  have hprobe : doubleProbe
      ('/' :: '*' :: (b1 ++ ('*' :: '/' :: (nl ++ ('/' :: '*' :: (b2 ++ ('*' :: '/' :: r))))))) =
      some (b1, b2) := by
    show doubleTail [] (b1 ++ ('*' :: '/' :: (nl ++ ('/' :: '*' :: (b2 ++ ('*' :: '/' :: r)))))) =
      some (b1, b2)
    exact hdt
  rw [hprobe]

/-- Witness for C7 (amended) with one blank line between the two comments. -/
theorem c7_amended_witness :
    searchDouble
      (lit "/*" ++ (lit "A" ++ (lit "*/" ++ (lit "\n\n" ++ (lit "/*" ++ (lit "B" ++ (lit "*/" ++ []))))))) =
      some (lit "A", lit "B") :=
  c7_amended_double_header (lit "A") (lit "B") (lit "\n\n") []
    (Or.inr rfl) (by decide) (by decide)

theorem scan1_eq_some {α : Type} (probe : List Char → Option α) (s : List Char)
    (r : α) (h : scan1 probe s = some r) : ∃ t, probe t = some r := by
  induction s with
  | nil => exact Option.noConfusion h
  | cons c rest ih =>
    rw [scan1] at h
    cases hp : probe (c :: rest) with
    | some r2 =>
      rw [hp] at h
      exact ⟨c :: rest, hp.trans h⟩
    | none =>
      rw [hp] at h
      exact ih h

theorem copyrightTail_group4 (s4 y1 y a : List Char)
    (h : copyrightTail y1 s4 = some (y, a)) :
    ∃ x : List Char, a = List.takeWhile (fun c => c != '\n') x := by
  cases s4 with
  | nil => exact Option.noConfusion h
  | cons c s5 =>
    rw [copyrightTail] at h
    by_cases hc : c = ','
    · rw [if_pos hc] at h
      have hp := (Prod.mk.injEq ..).mp (Option.some.inj h)
      exact ⟨_, hp.2.symm⟩
    · rw [if_neg hc] at h
      exact Option.noConfusion h

theorem copyrightAt_group4 (s y a : List Char) (h : copyrightAt s = some (y, a)) :
    ∃ x : List Char, a = List.takeWhile (fun c => c != '\n') x := by
  unfold copyrightAt at h
  cases hst : stripLit (lit "Copyright") (s.dropWhile isPySpace) with
  | none =>
    rw [hst, copyrightCont] at h
    exact Option.noConfusion h
  | some rest =>
    rw [hst, copyrightCont] at h
    unfold copyrightDigits at h
    by_cases hy : ((rest.dropWhile isPySpace).takeWhile isPyDigit) = []
    · rw [if_pos hy] at h
      exact Option.noConfusion h
    · rw [if_neg hy] at h
      exact copyrightTail_group4 _ _ y a h

theorem copyrightProbe_some (t y a : List Char) (h : copyrightProbe t = some (y, a)) :
    ∃ u, copyrightAt u = some (y, a) := by
  cases t with
  | nil => exact Option.noConfusion h
  | cons c rest =>
    rw [copyrightProbe.eq_def] at h
    dsimp only at h
    by_cases hc : c = '('
    · rw [if_pos hc] at h
      cases rest with
      | nil => exact Option.noConfusion h
      | cons d rest2 =>
        dsimp only at h
        by_cases hd : d = 'C'
        · rw [if_pos hd] at h
          cases rest2 with
          | nil => exact Option.noConfusion h
          | cons e r =>
            dsimp only at h
            by_cases he : e = ')'
            · rw [if_pos he] at h
              exact ⟨r, h⟩
            · rw [if_neg he] at h
              exact Option.noConfusion h
        · rw [if_neg hd] at h
          exact Option.noConfusion h
    · rw [if_neg hc] at h
      exact Option.noConfusion h

/-- Claim C10: (i) whatever the second header is, the raw author string captured
by the copyright pattern (group 4) is cut at the first newline — it never spans
past the physical line of the `(C) Copyright` statement; (ii) when the captured
string holds several ` and` occurrences, the strip removes from the LAST one
onward: `Alice and Bob and Contributors.` yields authors `Alice and Bob`, as
evaluated on a complete run. -/
theorem c10_group4_single_line_last_and :
    (∀ h2 y a, searchCopyright h2 = some (y, a) → '\n' ∉ a) ∧
    extractRecord (lit "F.java")
        (lit "/* x */\n/* (C) Copyright 2003, by Alice and Bob and Contributors. */") =
      Except.ok (lit "2003", lit "Alice and Bob", []) := by
  constructor
  · intro h2 y a h hmem
    obtain ⟨t, ht⟩ := scan1_eq_some copyrightProbe h2 (y, a) h
    obtain ⟨u, hu⟩ := copyrightProbe_some t y a ht
    obtain ⟨x, hx⟩ := copyrightAt_group4 u y a hu
    rw [hx] at hmem
    have := List.mem_takeWhile_imp hmem
    exact absurd this (by decide)
  · decide

/-- Witness for C10: the theorem applied to the canonical copyright line shows
its captured author string is newline-free. -/
theorem c10_witness :
    '\n' ∉ lit "Barak Naveh and Contributors." :=
  c10_group4_single_line_last_and.1
    (lit "(C) Copyright 2003-2008, by Barak Naveh and Contributors.")
    (lit "2003") (lit "Barak Naveh and Contributors.") (by decide)

end HeaderReformat
